import Mathlib

/-!
Verification of the Smart-Form-Guide browser extension's form-detection and
value-application logic.

The development shallowly embeds the content script's `FormAssistant` class
(`chrome-extension/content.js`) and the sidebar's injected fill functions
(`SmartFormGuideSidebar.fillFormsWithMappings` / `fillFormsOnPage`).

DOM elements are modelled as flat `Control` records carrying the attributes the
code reads (`type`, `id`, `name`, `placeholder`, `value`, `checked`,
`required`, `disabled`, computed style, rendered size).  The label-resolution
heuristics (`getFieldLabel`, `getRadioGroupLabel`) are pure functions of the
surrounding document; since no claim under verification constrains their
internals, their results are modelled as oracle attributes on the control
(`label`, `groupLabelHint`), as is the synthesized XPath (`xpath`).
`eid` is an element-identity tag standing for JavaScript reference identity.
-/

namespace SmartFormGuide

/-- ASCII model of JavaScript `String.prototype.toLowerCase` (applied per
character); the strings this code lowercases — attribute values, keyword-table
entries, label text — are compared only through ASCII keywords, so the ASCII
case map is the relevant behaviour. -/
def charToLower (ch : Char) : Char :=
  if 65 ≤ ch.toNat ∧ ch.toNat ≤ 90 then Char.ofNat (ch.toNat + 32) else ch

/-- `toLowerCase` on a whole string. -/
def strToLower (s : String) : String := String.mk (s.data.map charToLower)

/-- Does `needle` occur as a contiguous sublist of the second argument? -/
def charsContain (needle : List Char) : List Char → Bool
  | [] => needle.isEmpty
  | c :: rest => needle.isPrefixOf (c :: rest) || charsContain needle rest

/-- JavaScript `String.prototype.includes`: `sub` occurs as a contiguous
substring of `s`. -/
def strContains (s sub : String) : Bool :=
  charsContain sub.toList s.toList

/-- A DOM form control (`input` / `select` / `textarea`) as read by the code.
`tag` is the lowercased tag name.  `display`, `visibility`, `opacity` are the
computed-style strings and `offsetWidth` / `offsetHeight` the rendered size
read by `isElementVisible`.  `label` is the Label Resolver's result for this
control (oracle, see module docstring); `groupLabelHint` is the result of
`getRadioGroupLabel` when this control is the first visible radio of a group
(`none` models JavaScript `null`). -/
structure Control where
  eid : Nat
  tag : String
  type : String
  id : String
  name : String
  placeholder : String
  value : String
  checked : Bool
  required : Bool
  disabled : Bool
  display : String
  visibility : String
  opacity : String
  offsetWidth : Nat
  offsetHeight : Nat
  label : String
  groupLabelHint : Option String
  xpath : String
deriving DecidableEq, Repr

/-- `FormAssistant.getFieldLabel` (content.js 298-344): the label-resolution
result, modelled as the control's `label` oracle attribute. -/
def getFieldLabel (c : Control) : String := c.label

/-- `FormAssistant.getRadioGroupLabel` (content.js 225-253): ancestor search
from the first visible radio, modelled as its `groupLabelHint` oracle. -/
def getRadioGroupLabel (firstRadio : Control) : Option String :=
  firstRadio.groupLabelHint

/-- `FormAssistant.isElementVisible` (content.js 255-262). -/
def isElementVisible (c : Control) : Bool :=
  c.display != "none" &&
  c.visibility != "hidden" &&
  c.opacity != "0" &&
  decide (0 < c.offsetWidth) &&
  decide (0 < c.offsetHeight)

/-- The keyword table of `FormAssistant.classifyField` (content.js 393-415),
in declaration order (JavaScript `Object.entries` preserves string-key
insertion order). -/
def fieldTypes : List (String × List String) :=
  [("name", ["name", "applicant", "owner", "contractor", "first", "last", "full"]),
   ("email", ["email", "e-mail", "mail"]),
   ("phone", ["phone", "telephone", "mobile", "cell", "tel"]),
   ("address", ["address", "street", "location", "addr"]),
   ("city", ["city", "municipality", "town"]),
   ("state", ["state", "province", "region"]),
   ("zip", ["zip", "postal", "zipcode", "postcode"]),
   ("date", ["date", "when", "time", "birth", "dob"]),
   ("description", ["description", "details", "notes", "comments", "message"]),
   ("value", ["value", "cost", "amount", "price", "$", "fee"]),
   ("area", ["area", "square", "sqft", "size", "footage"]),
   ("permit_type", ["permit", "type", "category", "kind"]),
   ("project_description", ["project", "work", "scope", "construction"]),
   ("company", ["company", "business", "organization", "firm"]),
   ("title", ["title", "position", "job"]),
   ("website", ["website", "url", "site", "web"]),
   ("password", ["password", "pass", "pwd"]),
   ("username", ["username", "user", "login"]),
   ("number", ["number", "num", "id", "reference"]),
   ("checkbox", ["agree", "accept", "confirm", "check"]),
   ("radio", ["select", "choose", "option"])]

/-- The lowercase text blob `classifyField` matches keywords against:
`(element.name + ' ' + element.id + ' ' + element.placeholder + ' ' +
this.getFieldLabel(element)).toLowerCase()`. -/
def classifyBlob (c : Control) : String :=
  strToLower (c.name ++ " " ++ c.id ++ " " ++ c.placeholder ++ " " ++ getFieldLabel c)

/-- One table entry matches when any of its keywords occurs in the blob. -/
def entryMatches (text : String) (entry : String × List String) : Bool :=
  entry.2.any (fun keyword => strContains text keyword)

/-- `FormAssistant.classifyField` (content.js 382-424). -/
def classifyField (c : Control) : String :=
  let text := classifyBlob c
  if c.type == "email" then "email"
  else if c.type == "tel" then "phone"
  else if c.type == "date" then "date"
  else if c.type == "number" then "number"
  else if c.type == "url" then "url"
  else
    match fieldTypes.find? (fun entry => entryMatches text entry) with
    | some entry => entry.1
    | none => "unknown"

/-- One option of a radio-group field (content.js 195-200). -/
structure RadioOption where
  value : String
  label : String
  checked : Bool
  element : Control
deriving DecidableEq, Repr

/-- A detected logical field (the `fieldInfo` records built by `analyzeField`
and `analyzeRadioGroup`).  `options` and `radioButtons` are empty for
non-radio-group fields.  Confidence is modelled in `ℚ`; at the values reached
by the code (sums of 0.5 / 0.2 / 0.3) JavaScript double arithmetic agrees
exactly with rational arithmetic. -/
structure FieldInfo where
  element : Control
  id : String
  name : String
  type : String
  label : String
  placeholder : String
  value : String
  required : Bool
  fieldType : String
  confidence : ℚ
  xpath : String
  options : List RadioOption
  radioButtons : List Control
deriving DecidableEq, Repr

/-- `FormAssistant.calculateConfidence` (content.js 426-445). -/
def calculateConfidence (fieldInfo : FieldInfo) : ℚ :=
  let c1 : ℚ := if fieldInfo.fieldType != "unknown" then 1/2 else 0
  let c2 : ℚ := c1 + (if fieldInfo.required then 1/5 else 0)
  let c3 : ℚ := c2 + (if fieldInfo.label != "" && decide (2 < fieldInfo.label.length) then 3/10 else 0)
  min c3 1

/-- `FormAssistant.analyzeField` (content.js 141-173).  `formIndex` is the
string interpolation of the JavaScript `formIndex` argument (a number for the
form pass, `-1` for the standalone pass, `container_i` for the container
pass). -/
def analyzeField (element : Control) (formIndex : String) (inputIndex : Nat) :
    Option FieldInfo :=
  if element.type == "hidden" || element.type == "submit" ||
     element.type == "button" || element.type == "image" ||
     element.type == "reset" || element.disabled then
    none
  else if !isElementVisible element then
    none
  else
    let fieldInfo : FieldInfo :=
      { element := element
        id := if element.id != "" then element.id
              else "form_" ++ formIndex ++ "_input_" ++ toString inputIndex
        name := element.name
        type := if element.type != "" then element.type else element.tag
        label := getFieldLabel element
        placeholder := element.placeholder
        value := element.value
        required := element.required
        fieldType := classifyField element
        confidence := 0
        xpath := element.xpath
        options := []
        radioButtons := [] }
    some { fieldInfo with confidence := calculateConfidence fieldInfo }

/-- A radio is kept by `analyzeRadioGroup`'s filter when enabled and visible
(content.js 177-179). -/
def radioEligible (radio : Control) : Bool :=
  !radio.disabled && isElementVisible radio

/-- `FormAssistant.analyzeRadioGroup` (content.js 175-223). -/
def analyzeRadioGroup (radioButtons : List Control) (formIndex : String)
    (groupName : String) : Option FieldInfo :=
  let visibleRadios := radioButtons.filter radioEligible
  match visibleRadios with
  | [] => none
  | firstRadio :: _ =>
    let groupLabel :=
      match getRadioGroupLabel firstRadio with
      | some l => if l == "" then getFieldLabel firstRadio else l
      | none => getFieldLabel firstRadio
    let options := visibleRadios.map (fun radio =>
      { value := radio.value
        label := if getFieldLabel radio == "" then radio.value else getFieldLabel radio
        checked := radio.checked
        element := radio : RadioOption })
    let fieldInfo : FieldInfo :=
      { element := firstRadio
        id := if groupName != "" then groupName else "radio_group_" ++ formIndex
        name := groupName
        type := "radio-group"
        label := groupLabel
        placeholder := ""
        value := match visibleRadios.find? (fun r => r.checked) with
                 | some r => r.value
                 | none => ""
        required := visibleRadios.any (fun r => r.required)
        fieldType := "radio"
        confidence := 0
        xpath := firstRadio.xpath
        options := options
        radioButtons := visibleRadios }
    some { fieldInfo with confidence := calculateConfidence fieldInfo }

/-- Insert a radio into the name-keyed group map, preserving first-occurrence
key order and member insertion order (the `radioGroups` JavaScript `Map`). -/
def addToGroups (groups : List (String × List Control)) (name : String)
    (c : Control) : List (String × List Control) :=
  match groups with
  | [] => [(name, [c])]
  | (n, cs) :: rest =>
    if n == name then (n, cs ++ [c]) :: rest
    else (n, cs) :: addToGroups rest name c

/-- The radio-group map built by one scan scope: radios with a truthy `name`
are grouped by name; everything else is ignored here (content.js 116-123,
452-459, 496-502). -/
def collectRadioGroups (controls : List Control) : List (String × List Control) :=
  controls.foldl
    (fun groups c =>
      if c.type == "radio" && c.name != "" then addToGroups groups c.name c
      else groups)
    []

/-- `FormAssistant.analyzeForm` (content.js 112-139) and the identically
structured body of `detectStandaloneFields` (447-475): non-radio controls (and
nameless radios) go through `analyzeField` with their index in the scanned
control list; the radio groups are then processed in map insertion order. -/
def analyzeFormFields (controls : List Control) (formIndex : String) :
    List FieldInfo :=
  let nonRadio := controls.enum.filterMap (fun p =>
    if p.2.type == "radio" && p.2.name != "" then none
    else analyzeField p.2 formIndex p.1)
  let groups := collectRadioGroups controls
  nonRadio ++ groups.filterMap (fun g => analyzeRadioGroup g.2 formIndex g.1)

/-- The document as seen by the three scan passes: the control lists returned
by the three `querySelectorAll` calls, in document order — per-`<form>`
controls, controls outside any form, and per-container controls. -/
structure Document where
  forms : List (List Control)
  standalone : List Control
  containers : List (List Control)
deriving Repr

/-- The `alreadyDetected` check of `detectFieldsInContainers`
(content.js 487-493): membership of the group's radio list for radio-group
fields, element identity otherwise. -/
def alreadyDetected (fields : List FieldInfo) (c : Control) : Bool :=
  fields.any (fun field =>
    if field.type == "radio-group" then field.radioButtons.contains c
    else field.element == c)

/-- One step of the container-pass control loop (content.js 485-510). -/
def containerStep (formIndex : String)
    (st : List FieldInfo × List (String × List Control)) (p : Nat × Control) :
    List FieldInfo × List (String × List Control) :=
  if alreadyDetected st.1 p.2 then st
  else if p.2.type == "radio" && p.2.name != "" then
    (st.1, addToGroups st.2 p.2.name p.2)
  else
    match analyzeField p.2 formIndex p.1 with
    | some fieldInfo => (st.1 ++ [fieldInfo], st.2)
    | none => st

/-- One container of `detectFieldsInContainers` (content.js 481-519): controls
already detected are skipped; surviving named radios are grouped, other
controls analyzed and appended immediately; the container's radio groups are
appended after its control loop. -/
def scanContainer (detectedFields : List FieldInfo) (controls : List Control)
    (containerIndex : Nat) : List FieldInfo :=
  let formIndex := "container_" ++ toString containerIndex
  let st := controls.enum.foldl (containerStep formIndex) (detectedFields, [])
  st.1 ++ st.2.filterMap (fun g => analyzeRadioGroup g.2 formIndex g.1)

/-- The scan body of `FormAssistant.detectForms` starting from a given
accumulator: form-scoped pass, standalone pass, container pass
(content.js 79-90). -/
def detectScanFrom (acc : List FieldInfo) (doc : Document) : List FieldInfo :=
  let afterForms := doc.forms.enum.foldl
    (fun acc p => acc ++ analyzeFormFields p.2 (toString p.1)) acc
  let afterStandalone := afterForms ++ analyzeFormFields doc.standalone "-1"
  doc.containers.enum.foldl
    (fun acc p => scanContainer acc p.2 p.1) afterStandalone

/-- `FormAssistant.detectForms` (content.js 74-110) as a state transformer on
`this.detectedFields`: it first clears the previous detections
(`this.detectedFields = []`, line 76) and then runs the three passes. -/
def detectFormsRun (prevDetectedFields : List FieldInfo) (doc : Document) :
    List FieldInfo :=
  let cleared : List FieldInfo := []
  detectScanFrom cleared doc

/-- One full detection scan of a document. -/
def detectForms (doc : Document) : List FieldInfo :=
  detectFormsRun [] doc

/-!
Value Applier: the page-injected fill function of
`SmartFormGuideSidebar.fillFormsWithMappings` and the sample-data fallback
`fillFormsOnPage`.  A live control carries synthetic-event counters so that
"dispatches a change event exactly once" is observable.
-/

/-- A control on the live page together with the number of synthetic `input`
and `change` events dispatched on it so far. -/
structure LiveControl where
  ctrl : Control
  inputEvents : Nat
  changeEvents : Nat
deriving DecidableEq, Repr

/-- Replace the control at position `i` (identity otherwise). -/
def updateAt (page : List LiveControl) (i : Nat)
    (f : LiveControl → LiveControl) : List LiveControl :=
  page.enum.map (fun p => if p.1 == i then f p.2 else p.2)

/-- Setting `radio.checked = true` on the control at position `i`: the browser
clears `checked` on every other radio of the same (non-empty) name group; no
events fire for the implicit unchecking. -/
def checkRadioAt (page : List LiveControl) (i : Nat) : List LiveControl :=
  match page.get? i with
  | none => page
  | some target =>
    page.enum.map (fun p =>
      if p.1 == i then
        { p.2 with ctrl := { p.2.ctrl with checked := true } }
      else if target.ctrl.type == "radio" && target.ctrl.name != "" &&
              p.2.ctrl.type == "radio" && p.2.ctrl.name == target.ctrl.name then
        { p.2 with ctrl := { p.2.ctrl with checked := false } }
      else p.2)

/-- Dispatch one `change` event on the control at position `i`. -/
def dispatchChangeAt (page : List LiveControl) (i : Nat) : List LiveControl :=
  updateAt page i (fun lc => { lc with changeEvents := lc.changeEvents + 1 })

/-- Is this control a member of the radio group named `groupName`
(the `input[type="radio"][name="..."]` selector, part_000 line 1249)? -/
def isRadioGroupMember (groupName : String) (lc : LiveControl) : Bool :=
  lc.ctrl.type == "radio" && lc.ctrl.name == groupName

/-- The fuzzy radio match of the injected fill function (part_000 1255-1259):
exact value equality, or case-insensitive substring containment of the value
in the radio's resolved label or vice versa (label falling back to the radio's
value when empty). -/
def radioMatches (value : String) (lc : LiveControl) : Bool :=
  let radioLabel := if getFieldLabel lc.ctrl == "" then lc.ctrl.value
                    else getFieldLabel lc.ctrl
  lc.ctrl.value == value ||
  strContains (strToLower radioLabel) (strToLower value) ||
  strContains (strToLower value) (strToLower radioLabel)

/-- Positions of the radios of group `fieldId` that fuzzily match `value`, in
document order.  The match predicate reads only static attributes, so
precomputing it over the initial page is faithful to the sequential
`forEach`. -/
def radioMatchIdxs (page : List LiveControl) (fieldId value : String) :
    List Nat :=
  (page.enum.filter (fun p =>
    isRadioGroupMember fieldId p.2 && radioMatches value p.2)).map (fun p => p.1)

/-- The radio-group branch (part_000 1251-1267): every matching radio is
checked and receives one change event (the `return` inside `forEach` only
skips to the next radio, it does not break the loop). -/
def fillRadioGroup (page : List LiveControl) (idxs : List Nat) :
    List LiveControl :=
  idxs.foldl (fun pg i => dispatchChangeAt (checkRadioAt pg i) i) page

/-- Key resolution of the non-radio branch (part_000 1273-1284): first
`getElementById` (which returns nothing for an empty id string), then exact
`name` attribute match, then partial id/name substring match (an empty-string
substring selector matches nothing), each returning the first matching control
in document order. -/
def resolveIdx (page : List LiveControl) (fieldId : String) : Option Nat :=
  match (if fieldId == "" then none
         else page.enum.find? (fun p => p.2.ctrl.id == fieldId)) with
  | some p => some p.1
  | none =>
    match page.enum.find? (fun p => p.2.ctrl.name == fieldId) with
    | some p => some p.1
    | none =>
      if fieldId == "" then none
      else
        match page.enum.find? (fun p =>
          strContains p.2.ctrl.id fieldId || strContains p.2.ctrl.name fieldId) with
        | some p => some p.1
        | none => none

/-- `element.value = value` followed by one `input` and one `change` event
(part_000 1293-1295). -/
def writeValue (value : String) (l : LiveControl) : LiveControl :=
  { l with ctrl := { l.ctrl with value := value },
           inputEvents := l.inputEvents + 1,
           changeEvents := l.changeEvents + 1 }

/-- Processing of one `[fieldId, value]` entry by the injected fill function
(part_000 1245-1300).  Returns the updated page and the number of controls
counted as filled by this entry. -/
def applyEntry (page : List LiveControl) (entry : String × String) :
    List LiveControl × Nat :=
  let fieldId := entry.1
  let value := entry.2
  if value == "" || value == "N/A" then (page, 0)
  else
    let idxs := radioMatchIdxs page fieldId value
    if page.any (isRadioGroupMember fieldId) && !idxs.isEmpty then
      (fillRadioGroup page idxs, idxs.length)
    else
      match resolveIdx page fieldId with
      | none => (page, 0)
      | some i =>
        match page.get? i with
        | none => (page, 0)
        | some lc =>
          if lc.ctrl.type == "hidden" || lc.ctrl.type == "submit" ||
             lc.ctrl.type == "button" then (page, 0)
          else if lc.ctrl.type == "radio" then
            (dispatchChangeAt (checkRadioAt page i) i, 1)
          else
            (updateAt page i (writeValue value), 1)

/-- The injected fill function of `SmartFormGuideSidebar.fillFormsWithMappings`
(part_000 1242-1325): processes every map entry in order — an unresolvable
entry contributes nothing and does not abort the batch — and returns the total
filled count. -/
def fillFormsWithMappings (mappings : List (String × String))
    (page : List LiveControl) : List LiveControl × Nat :=
  mappings.foldl
    (fun st entry =>
      let next := applyEntry st.1 entry
      (next.1, st.2 + next.2))
    (page, 0)

/-- `SmartFormGuideSidebar.fillFormsOnPage` (part_000 1337-1362), the
sample-data fallback injected by `autoFillWithSampleData`.  For each control
that is not hidden/submit/button it evaluates `this.getFieldLabel(input)`; the
function is injected via `chrome.scripting.executeScript`, which serializes it
and re-creates it in the page context, where `this` does not have a
`getFieldLabel` method — so the call raises a `TypeError` at the first
fillable control and the iteration aborts with no control filled. -/
def fillFormsOnPage (data : List (String × String)) :
    List LiveControl → Except String Nat
  | [] => Except.ok 0
  | lc :: rest =>
    if lc.ctrl.type == "hidden" || lc.ctrl.type == "submit" ||
       lc.ctrl.type == "button" then
      fillFormsOnPage data rest
    else
      Except.error "TypeError: this.getFieldLabel is not a function"

/-- The sample-data dictionary of `autoFillWithSampleData` (part_000 924-961).
The two date entries are computed from the current clock at run time and are
modelled as the ISO date strings of an arbitrary but fixed run day. -/
def sampleData : List (String × String) :=
  [("name", "Eddie Gonzalez"),
   ("customer", "Eddie Gonzalez"),
   ("applicant", "Eddie Gonzalez"),
   ("owner", "Eddie Gonzalez"),
   ("email", "eddie.gonzalez@email.com"),
   ("phone", "(555) 987-6543"),
   ("tel", "(555) 987-6543"),
   ("address", "1234 Solar Avenue"),
   ("street", "1234 Solar Avenue"),
   ("city", "San Jose"),
   ("state", "CA"),
   ("zip", "95123"),
   ("zipcode", "95123"),
   ("postal", "95123"),
   ("company", "SunPower Solar"),
   ("contractor", "SunPower Solar"),
   ("system", "8.5 kW Solar System"),
   ("size", "8.5"),
   ("capacity", "8.5 kW"),
   ("panels", "24"),
   ("inverter", "Enphase IQ8+"),
   ("utility", "Pacific Gas & Electric (PG&E)"),
   ("account", "1234567890"),
   ("meter", "E-12345678"),
   ("description", "Residential rooftop solar installation with 24 panels"),
   ("date", "2026-10-12"),
   ("installation", "2026-11-11")]

/-! General list helper lemmas. -/

theorem find?_of_prefix_false {α} (p : α → Bool) :
    ∀ (pre : List α) (e : α) (post : List α),
    (∀ x ∈ pre, p x = false) → p e = true →
    (pre ++ e :: post).find? p = some e := by
  intro pre
  induction pre with
  | nil => intro e post _ he; simp [List.find?, he]
  | cons a t ih =>
    intro e post hpre he
    have ha : p a = false := hpre a (List.mem_cons_self a t)
    simp only [List.cons_append, List.find?, ha]
    exact ih e post (fun x hx => hpre x (List.mem_cons_of_mem a hx)) he

theorem find?_of_unique {α} (p : α → Bool) :
    ∀ {l : List α} {a : α}, a ∈ l → p a = true →
    (∀ b ∈ l, p b = true → b = a) → l.find? p = some a := by
  intro l
  induction l with
  | nil => intro a ha; cases ha
  | cons x t ih =>
    intro a ha hpa huniq
    by_cases hx : p x = true
    · have hxa : x = a := huniq x (List.mem_cons_self x t) hx
      subst hxa
      simp [List.find?, hx]
    · have hxf : p x = false := by
        cases h : p x with
        | true => exact absurd h hx
        | false => rfl
      simp only [List.find?, hxf]
      have hat : a ∈ t := by
        rcases List.mem_cons.mp ha with h | h
        · subst h; exact absurd hpa hx
        · exact h
      exact ih hat hpa (fun b hb hpb => huniq b (List.mem_cons_of_mem x hb) hpb)

theorem enumFrom_map_get? {α} (g : Nat → α → α) :
    ∀ (l : List α) (n j : Nat),
    ((l.enumFrom n).map (fun p => g p.1 p.2)).get? j = (l.get? j).map (g (n + j)) := by
  intro l
  induction l with
  | nil => intro n j; simp [List.enumFrom]
  | cons a t ih =>
    intro n j
    cases j with
    | zero => simp [List.enumFrom]
    | succ j' =>
      simp only [List.enumFrom, List.map_cons, List.get?_cons_succ]
      have harith : n + 1 + j' = n + (j' + 1) := by omega
      rw [ih (n + 1) j', harith]

theorem mem_enumFrom_get? {α} :
    ∀ (l : List α) (n i : Nat) (x : α),
    (i, x) ∈ l.enumFrom n → n ≤ i ∧ l.get? (i - n) = some x := by
  intro l
  induction l with
  | nil => intro n i x h; simp [List.enumFrom] at h
  | cons a t ih =>
    intro n i x h
    simp only [List.enumFrom, List.mem_cons] at h
    rcases h with h | h
    · have h1 : i = n := congrArg Prod.fst h
      have h2 : x = a := congrArg Prod.snd h
      subst h1; subst h2
      simp
    · rcases ih (n + 1) i x h with ⟨hle, hget⟩
      refine ⟨by omega, ?_⟩
      have : i - n = (i - (n + 1)) + 1 := by omega
      rw [this, List.get?_cons_succ]
      exact hget

theorem mem_enum_get? {α} {l : List α} {i : Nat} {x : α}
    (h : (i, x) ∈ l.enum) : l.get? i = some x := by
  have := mem_enumFrom_get? l 0 i x h
  simpa using this.2

theorem get?_mem' {α} : ∀ {l : List α} {i : Nat} {x : α},
    l.get? i = some x → x ∈ l := by
  intro l
  induction l with
  | nil => intro i x h; simp at h
  | cons a t ih =>
    intro i x h
    cases i with
    | zero => simp at h; simp [h]
    | succ i' =>
      simp only [List.get?_cons_succ] at h
      exact List.mem_cons_of_mem a (ih h)

theorem enum_snd_mem {α} {l : List α} {p : Nat × α} (hp : p ∈ l.enum) :
    p.2 ∈ l := by
  obtain ⟨i, x⟩ := p
  exact get?_mem' (mem_enum_get? hp)

theorem enum_find?_first {α} (q : α → Bool) :
    ∀ (l : List α) (n i : Nat) (x : α),
    l.get? i = some x → q x = true →
    (∀ j y, j < i → l.get? j = some y → q y = false) →
    (l.enumFrom n).find? (fun p => q p.2) = some (n + i, x) := by
  intro l
  induction l with
  | nil => intro n i x h; simp at h
  | cons a t ih =>
    intro n i x hget hq hfirst
    cases i with
    | zero =>
      simp only [List.get?_cons_zero, Option.some.injEq] at hget
      subst hget
      simp [List.enumFrom, List.find?, hq]
    | succ i' =>
      have ha : q a = false :=
        hfirst 0 a (Nat.succ_pos i') (by simp)
      simp only [List.enumFrom, List.find?, ha]
      have := ih (n + 1) i' x (by simpa using hget) hq
        (fun j y hj hy => hfirst (j + 1) y (by omega) (by simpa using hy))
      rw [this]
      congr 2
      omega

theorem enum_find?_first' {α} (q : α → Bool) (l : List α) (i : Nat) (x : α)
    (hget : l.get? i = some x) (hq : q x = true)
    (hfirst : ∀ j y, j < i → l.get? j = some y → q y = false) :
    l.enum.find? (fun p => q p.2) = some (i, x) := by
  have := enum_find?_first q l 0 i x hget hq hfirst
  simpa using this

/-! Characterizations of the detector's building blocks. -/

/-- The full eligibility filter of 4.4: not of an excluded type, enabled,
visible.  `analyzeField` returns a field exactly for eligible controls. -/
def eligibleControl (c : Control) : Bool :=
  !(c.type == "hidden" || c.type == "submit" || c.type == "button" ||
    c.type == "image" || c.type == "reset" || c.disabled) &&
  isElementVisible c

theorem analyzeField_some {c : Control} {fi : String} {i : Nat} {f : FieldInfo}
    (h : analyzeField c fi i = some f) :
    eligibleControl c = true ∧ f.element = c ∧ f.radioButtons = [] ∧
    f.name = c.name ∧ f.type = (if c.type != "" then c.type else c.tag) := by
  unfold analyzeField at h
  split at h
  · exact absurd h (by simp)
  · split at h
    · exact absurd h (by simp)
    · rename_i hskip hvis
      have hf := (Option.some.injEq _ _).mp h
      subst hf
      refine ⟨?_, rfl, rfl, rfl, rfl⟩
      simp only [eligibleControl, Bool.and_eq_true, Bool.not_eq_true']
      constructor
      · simpa using hskip
      · simpa using hvis

theorem analyzeField_of_eligible {c : Control} (fi : String) (i : Nat)
    (h : eligibleControl c = true) :
    ∃ f, analyzeField c fi i = some f ∧ f.element = c ∧ f.radioButtons = [] ∧
      f.name = c.name ∧ f.type = (if c.type != "" then c.type else c.tag) := by
  simp only [eligibleControl, Bool.and_eq_true, Bool.not_eq_true'] at h
  unfold analyzeField
  rw [if_neg (by simp [h.1]), if_neg (by simp [h.2])]
  exact ⟨_, rfl, rfl, rfl, rfl, rfl⟩

theorem analyzeRadioGroup_some {rs : List Control} {fi g : String}
    {f : FieldInfo} (h : analyzeRadioGroup rs fi g = some f) :
    ∃ first rest, rs.filter radioEligible = first :: rest ∧
      f.radioButtons = first :: rest ∧ f.element = first ∧
      f.type = "radio-group" ∧ f.name = g ∧
      f.options.length = (first :: rest).length ∧
      f.required = (first :: rest).any (fun r => r.required) ∧
      f.value = (match (first :: rest).find? (fun r => r.checked) with
                 | some r => r.value
                 | none => "") := by
  unfold analyzeRadioGroup at h
  cases hfil : rs.filter radioEligible with
  | nil => rw [hfil] at h; exact absurd h (by simp)
  | cons first rest =>
    rw [hfil] at h
    simp only at h
    have hf := (Option.some.injEq _ _).mp h
    subst hf
    exact ⟨first, rest, rfl, rfl, rfl, rfl, rfl, by simp [List.length_map], rfl, rfl⟩

theorem analyzeRadioGroup_isSome {rs : List Control} {fi g : String} :
    (analyzeRadioGroup rs fi g).isSome = true ↔
    ∃ r ∈ rs, radioEligible r = true := by
  constructor
  · intro h
    rcases Option.isSome_iff_exists.mp h with ⟨f, hf⟩
    rcases analyzeRadioGroup_some hf with ⟨first, rest, hfil, _⟩
    have : first ∈ rs.filter radioEligible := by rw [hfil]; simp
    rcases List.mem_filter.mp this with ⟨hmem, helig⟩
    exact ⟨first, hmem, helig⟩
  · intro ⟨r, hmem, helig⟩
    unfold analyzeRadioGroup
    cases hfil : rs.filter radioEligible with
    | nil =>
      have : r ∈ rs.filter radioEligible := List.mem_filter.mpr ⟨hmem, helig⟩
      rw [hfil] at this
      cases this
    | cons first rest => simp

/-- Invariant of the radio-group maps built during scanning: every member is a
radio with exactly the group's (non-empty) name. -/
def GroupsOK (groups : List (String × List Control)) : Prop :=
  ∀ p ∈ groups, ∀ r ∈ p.2, r.type = "radio" ∧ r.name = p.1 ∧ p.1 ≠ ""

theorem groupsOK_nil : GroupsOK [] := by intro p hp; cases hp

theorem addToGroups_OK {groups : List (String × List Control)} {c : Control}
    (hg : GroupsOK groups) (ht : c.type = "radio") (hn : c.name ≠ "") :
    GroupsOK (addToGroups groups c.name c) := by
  induction groups with
  | nil =>
    intro p hp r hr
    simp only [addToGroups, List.mem_singleton] at hp
    subst hp
    simp only [List.mem_singleton] at hr
    subst hr
    exact ⟨ht, rfl, hn⟩
  | cons q rest ih =>
    have hqOK : ∀ r ∈ q.2, r.type = "radio" ∧ r.name = q.1 ∧ q.1 ≠ "" :=
      hg q (List.mem_cons_self q rest)
    have hrest : GroupsOK rest := fun p hp => hg p (List.mem_cons_of_mem q hp)
    intro p hp r hr
    simp only [addToGroups] at hp
    by_cases heq : q.1 == c.name
    · rw [if_pos heq] at hp
      have hq1 : q.1 = c.name := by simpa using heq
      rcases List.mem_cons.mp hp with hp | hp
      · subst hp
        rcases List.mem_append.mp hr with hr | hr
        · exact hqOK r hr
        · simp only [List.mem_singleton] at hr
          subst hr
          exact ⟨ht, hq1.symm, by rw [hq1]; exact hn⟩
      · exact hg p (List.mem_cons_of_mem q hp) r hr
    · rw [if_neg heq] at hp
      rcases List.mem_cons.mp hp with hp | hp
      · subst hp; exact hqOK r hr
      · exact ih hrest p hp r hr

theorem collectRadioGroups_OK (controls : List Control) :
    GroupsOK (collectRadioGroups controls) := by
  suffices h : ∀ (l : List Control) (gs : List (String × List Control)),
      GroupsOK gs →
      GroupsOK (l.foldl (fun groups c =>
        if c.type == "radio" && c.name != "" then addToGroups groups c.name c
        else groups) gs) by
    exact h controls [] groupsOK_nil
  intro l
  induction l with
  | nil => intro gs hgs; exact hgs
  | cons c t ih =>
    intro gs hgs
    simp only [List.foldl_cons]
    by_cases hc : c.type == "radio" && c.name != ""
    · rw [if_pos hc]
      have hc' := (Bool.and_eq_true _ _).mp hc
      exact ih _ (addToGroups_OK hgs (by simpa using hc'.1) (by simpa using hc'.2))
    · rw [if_neg hc]
      exact ih gs hgs

/-! The detector-output induction principle: any property holding of every
field produced by `analyzeField`, and of every field produced by
`analyzeRadioGroup` on a well-formed radio group, holds of every field in the
detector's output. -/

theorem analyzeFormFields_pres (P : FieldInfo → Prop)
    (h1 : ∀ c fi i f, analyzeField c fi i = some f → P f)
    (h2 : ∀ rs fi g f, (∀ r ∈ rs, r.type = "radio" ∧ r.name = g ∧ g ≠ "") →
      analyzeRadioGroup rs fi g = some f → P f)
    (controls : List Control) (fi : String) :
    ∀ f ∈ analyzeFormFields controls fi, P f := by
  intro f hf
  unfold analyzeFormFields at hf
  rcases List.mem_append.mp hf with hf | hf
  · rcases List.mem_filterMap.mp hf with ⟨p, _, hp⟩
    split at hp
    · cases hp
    · exact h1 p.2 fi p.1 f hp
  · rcases List.mem_filterMap.mp hf with ⟨g, hgmem, hg⟩
    exact h2 g.2 fi g.1 f (fun r hr => collectRadioGroups_OK controls g hgmem r hr) hg

theorem containerFold_pres (P : FieldInfo → Prop) (fi : String)
    (h1 : ∀ c i f, analyzeField c fi i = some f → P f) :
    ∀ (l : List (Nat × Control)) (st : List FieldInfo × List (String × List Control)),
    (∀ f ∈ st.1, P f) → GroupsOK st.2 →
    (∀ f ∈ (l.foldl (containerStep fi) st).1, P f) ∧
    GroupsOK (l.foldl (containerStep fi) st).2 := by
  intro l
  induction l with
  | nil => intro st hst hgs; exact ⟨hst, hgs⟩
  | cons p t ih =>
    intro st hst hgs
    simp only [List.foldl_cons]
    apply ih
    all_goals {
      unfold containerStep
      split
      · first
        | exact hst
        | exact hgs
      · split
        · first
          | exact hst
          | {
              rename_i hcond
              have hc := (Bool.and_eq_true _ _).mp hcond
              exact addToGroups_OK hgs (by simpa using hc.1) (by simpa using hc.2)
            }
        · split
          · rename_i fieldInfo hfi
            first
            | {
                intro f hf
                rcases List.mem_append.mp hf with hf | hf
                · exact hst f hf
                · simp only [List.mem_singleton] at hf
                  subst hf
                  exact h1 p.2 p.1 f hfi
              }
            | exact hgs
          · first
            | exact hst
            | exact hgs
    }

theorem scanContainer_pres (P : FieldInfo → Prop)
    (h1 : ∀ c fi i f, analyzeField c fi i = some f → P f)
    (h2 : ∀ rs fi g f, (∀ r ∈ rs, r.type = "radio" ∧ r.name = g ∧ g ≠ "") →
      analyzeRadioGroup rs fi g = some f → P f)
    (acc : List FieldInfo) (controls : List Control) (i : Nat)
    (hacc : ∀ f ∈ acc, P f) :
    ∀ f ∈ scanContainer acc controls i, P f := by
  intro f hf
  unfold scanContainer at hf
  set fiStr := "container_" ++ toString i with hfiStr
  have hfold := containerFold_pres P fiStr (fun c k g h => h1 c fiStr k g h)
    controls.enum (acc, []) hacc groupsOK_nil
  rcases List.mem_append.mp hf with hf | hf
  · exact hfold.1 f hf
  · rcases List.mem_filterMap.mp hf with ⟨g, hgmem, hg⟩
    exact h2 g.2 fiStr g.1 f (fun r hr => hfold.2 g hgmem r hr) hg

theorem detectScan_pres (P : FieldInfo → Prop)
    (h1 : ∀ c fi i f, analyzeField c fi i = some f → P f)
    (h2 : ∀ rs fi g f, (∀ r ∈ rs, r.type = "radio" ∧ r.name = g ∧ g ≠ "") →
      analyzeRadioGroup rs fi g = some f → P f)
    (doc : Document) (acc : List FieldInfo) (hacc : ∀ f ∈ acc, P f) :
    ∀ f ∈ detectScanFrom acc doc, P f := by
  unfold detectScanFrom
  have hforms : ∀ (l : List (Nat × List Control)) (a : List FieldInfo),
      (∀ f ∈ a, P f) →
      ∀ f ∈ l.foldl (fun acc p => acc ++ analyzeFormFields p.2 (toString p.1)) a, P f := by
    intro l
    induction l with
    | nil => intro a ha; exact ha
    | cons p t ih =>
      intro a ha
      simp only [List.foldl_cons]
      apply ih
      intro f hf
      rcases List.mem_append.mp hf with hf | hf
      · exact ha f hf
      · exact analyzeFormFields_pres P h1 h2 p.2 (toString p.1) f hf
  have hcontainers : ∀ (l : List (Nat × List Control)) (a : List FieldInfo),
      (∀ f ∈ a, P f) →
      ∀ f ∈ l.foldl (fun acc p => scanContainer acc p.2 p.1) a, P f := by
    intro l
    induction l with
    | nil => intro a ha; exact ha
    | cons p t ih =>
      intro a ha
      simp only [List.foldl_cons]
      exact ih _ (scanContainer_pres P h1 h2 a p.2 p.1 ha)
  apply hcontainers
  intro f hf
  rcases List.mem_append.mp hf with hf | hf
  · exact hforms doc.forms.enum acc hacc f hf
  · exact analyzeFormFields_pres P h1 h2 doc.standalone "-1" f hf

theorem detectForms_pres (P : FieldInfo → Prop)
    (h1 : ∀ c fi i f, analyzeField c fi i = some f → P f)
    (h2 : ∀ rs fi g f, (∀ r ∈ rs, r.type = "radio" ∧ r.name = g ∧ g ≠ "") →
      analyzeRadioGroup rs fi g = some f → P f)
    (doc : Document) : ∀ f ∈ detectForms doc, P f :=
  detectScan_pres P h1 h2 doc [] (fun f hf => absurd hf (List.not_mem_nil f))

/-! Fixtures for witnesses and counterexamples: a plain visible, enabled text
control, and variations of it. -/

def baseControl : Control :=
  { eid := 0, tag := "input", type := "text", id := "", name := "",
    placeholder := "", value := "", checked := false, required := false,
    disabled := false, display := "block", visibility := "visible",
    opacity := "1", offsetWidth := 120, offsetHeight := 24, label := "",
    groupLabelHint := none, xpath := "" }

def dummyField : FieldInfo :=
  { element := baseControl, id := "", name := "", type := "", label := "",
    placeholder := "", value := "", required := false, fieldType := "",
    confidence := 0, xpath := "", options := [], radioButtons := [] }

/-! ## Claim C3 -/

/-- C3: running the Field Detector twice on an unchanged document yields the
same ordered list of LogicalFields both times.  `detectFormsRun` clears the
previously held `detectedFields` before scanning (content.js line 76), so its
output does not depend on the prior state at all: a second run reproduces the
first run's fields in the same order, and any two runs from any prior states
agree. -/
theorem claim_C3_detector_deterministic (prev : List FieldInfo) (doc : Document) :
    detectFormsRun (detectFormsRun prev doc) doc = detectFormsRun prev doc ∧
    ∀ other : List FieldInfo, detectFormsRun prev doc = detectFormsRun other doc :=
  ⟨rfl, fun _ => rfl⟩

/-! ## Claim C4 -/

theorem radioEligible_eligibleControl {r : Control}
    (he : radioEligible r = true) (ht : r.type = "radio") :
    eligibleControl r = true := by
  simp only [radioEligible, Bool.and_eq_true, Bool.not_eq_true'] at he
  simp [eligibleControl, ht, he.1, he.2]

theorem detectForms_all_eligible (doc : Document) :
    ∀ f ∈ detectForms doc,
      eligibleControl f.element = true ∧
      (∀ r ∈ f.radioButtons, eligibleControl r = true) ∧
      (∀ o ∈ f.options, eligibleControl o.element = true) := by
  apply detectForms_pres
  · intro c fi i f hf
    rcases analyzeField_some hf with ⟨helig, helem, hrb, -, -⟩
    refine ⟨helem ▸ helig, ?_, ?_⟩
    · intro r hr; rw [hrb] at hr; cases hr
    · intro o ho
      have hopt : f.options = [] := by
        unfold analyzeField at hf
        split at hf
        · exact absurd hf (by simp)
        · split at hf
          · exact absurd hf (by simp)
          · have := (Option.some.injEq _ _).mp hf
            subst this
            rfl
      rw [hopt] at ho; cases ho
  · intro rs fi g f hOK hf
    rcases analyzeRadioGroup_some hf with
      ⟨first, rest, hfil, hrb, helem, -, -, -, -, -⟩
    have hmem : ∀ r ∈ first :: rest, eligibleControl r = true := by
      intro r hr
      have : r ∈ rs.filter radioEligible := by rw [hfil]; exact hr
      rcases List.mem_filter.mp this with ⟨hin, helig⟩
      exact radioEligible_eligibleControl helig (hOK r hin).1
    refine ⟨helem ▸ hmem first (List.mem_cons_self first rest), ?_, ?_⟩
    · intro r hr; rw [hrb] at hr; exact hmem r hr
    · intro o ho
      have hopts : f.options = (first :: rest).map (fun radio =>
          { value := radio.value
            label := if getFieldLabel radio == "" then radio.value
                     else getFieldLabel radio
            checked := radio.checked
            element := radio : RadioOption }) := by
        unfold analyzeRadioGroup at hf
        rw [hfil] at hf
        simp only at hf
        have := (Option.some.injEq _ _).mp hf
        subst this
        rfl
      rw [hopts] at ho
      rcases List.mem_map.mp ho with ⟨r, hr, hro⟩
      rw [← hro]
      exact hmem r hr

theorem excluded_not_eligible {c : Control}
    (hc : c.type = "hidden" ∨ c.type = "submit" ∨ c.type = "button" ∨
          c.type = "image" ∨ c.type = "reset" ∨ c.disabled = true ∨
          isElementVisible c = false) :
    eligibleControl c = false := by
  rcases hc with h | h | h | h | h | h | h <;>
    simp [eligibleControl, h]

/-- C4: a control of type hidden/submit/button/image/reset, or disabled, or
invisible (display none, visibility hidden, opacity 0, or zero rendered
size), never appears in the detector's output in any pass: it is never a
field's representative element, never a radio-group member, and never an
option's element. -/
theorem claim_C4_excluded_never_output (doc : Document) (c : Control)
    (hc : c.type = "hidden" ∨ c.type = "submit" ∨ c.type = "button" ∨
          c.type = "image" ∨ c.type = "reset" ∨ c.disabled = true ∨
          isElementVisible c = false) :
    ∀ f ∈ detectForms doc,
      f.element ≠ c ∧ c ∉ f.radioButtons ∧ ∀ o ∈ f.options, o.element ≠ c := by
  intro f hf
  have hP := detectForms_all_eligible doc f hf
  have hcf : eligibleControl c = false := excluded_not_eligible hc
  refine ⟨?_, ?_, ?_⟩
  · intro h
    rw [h] at hP
    rw [hP.1] at hcf
    cases hcf
  · intro h
    have := hP.2.1 c h
    rw [this] at hcf
    cases hcf
  · intro o ho h
    have := hP.2.2 o ho
    rw [h] at this
    rw [this] at hcf
    cases hcf

def c4hidden : Control := { baseControl with eid := 1, type := "hidden", id := "token" }

def c4text : Control := { baseControl with eid := 2, id := "city", name := "city" }

def c4doc : Document := { forms := [[c4hidden, c4text]], standalone := [], containers := [] }

def c4field : FieldInfo := (detectForms c4doc).headD dummyField

theorem claim_C4_witness :
    c4field.element ≠ c4hidden ∧ c4hidden ∉ c4field.radioButtons :=
  have hm : c4field ∈ detectForms c4doc := by
    rw [show detectForms c4doc = [c4field] from rfl]
    exact List.mem_singleton_self c4field
  have h := claim_C4_excluded_never_output c4doc c4hidden (Or.inl rfl) c4field hm
  ⟨h.1, h.2.1⟩

/-! ## Claim C5 -/

/-- C5: every field's confidence lies in [0,1], equals the sum of 0.5 (type
classified, not unknown), 0.2 (required) and 0.3 (label longer than 2
characters) clamped to 1, and is exactly 1 precisely when all three
conditions hold. -/
theorem claim_C5_confidence (fieldInfo : FieldInfo) :
    0 ≤ calculateConfidence fieldInfo ∧
    calculateConfidence fieldInfo ≤ 1 ∧
    calculateConfidence fieldInfo =
      min ((if fieldInfo.fieldType ≠ "unknown" then (1 : ℚ)/2 else 0) +
           (if fieldInfo.required = true then (1 : ℚ)/5 else 0) +
           (if 2 < fieldInfo.label.length then (3 : ℚ)/10 else 0)) 1 ∧
    (calculateConfidence fieldInfo = 1 ↔
      fieldInfo.fieldType ≠ "unknown" ∧ fieldInfo.required = true ∧
      2 < fieldInfo.label.length) := by
  have hlabel : (fieldInfo.label != "" && decide (2 < fieldInfo.label.length))
      = decide (2 < fieldInfo.label.length) := by
    by_cases h : 2 < fieldInfo.label.length
    · have hne : fieldInfo.label ≠ "" := by
        intro he
        rw [he] at h
        simp at h
      simp [h, hne]
    · simp [h]
  unfold calculateConfidence
  rw [hlabel]
  by_cases ht : fieldInfo.fieldType = "unknown" <;>
    by_cases hr : fieldInfo.required = true <;>
      by_cases hl : 2 < fieldInfo.label.length <;>
        simp [ht, hr, hl] <;>
          norm_num [min_def]

/-! ## Claim C1 -/

/-- C1 (amended): for every name-group of radios, a radio-group LogicalField
is emitted iff the group has at least one visible, enabled member; when
emitted, its options list has exactly one entry per visible, enabled member,
its currentValue equals the value of the checked visible, enabled member (the
empty string if no visible, enabled member is checked), and its required flag
is true exactly when some visible, enabled member is required. -/
theorem claim_C1_radio_group (radios : List Control) (formIndex groupName : String) :
    ((analyzeRadioGroup radios formIndex groupName).isSome = true ↔
      ∃ r ∈ radios, radioEligible r = true) ∧
    ∀ f, analyzeRadioGroup radios formIndex groupName = some f →
      f.options.length = (radios.filter radioEligible).length ∧
      (f.required = true ↔
        ∃ r ∈ radios, radioEligible r = true ∧ r.required = true) ∧
      ((∀ r ∈ radios, radioEligible r = true → r.checked = false) →
        f.value = "") ∧
      (∀ r ∈ radios, radioEligible r = true → r.checked = true →
        (∀ r' ∈ radios, radioEligible r' = true → r'.checked = true → r' = r) →
        f.value = r.value) := by
  refine ⟨analyzeRadioGroup_isSome, ?_⟩
  intro f hf
  rcases analyzeRadioGroup_some hf with
    ⟨first, rest, hfil, hrb, helem, htype, hname, hlen, hreq, hval⟩
  refine ⟨?_, ?_, ?_, ?_⟩
  · rw [hfil]; exact hlen
  · constructor
    · intro h
      rw [hreq] at h
      rcases List.any_eq_true.mp h with ⟨x, hx, hreqx⟩
      have : x ∈ radios.filter radioEligible := by rw [hfil]; exact hx
      rcases List.mem_filter.mp this with ⟨hin, helig⟩
      exact ⟨x, hin, helig, hreqx⟩
    · intro ⟨r, hr, helig, hreqr⟩
      have : r ∈ first :: rest := by
        rw [← hfil]
        exact List.mem_filter.mpr ⟨hr, helig⟩
      rw [hreq]
      exact List.any_eq_true.mpr ⟨r, this, hreqr⟩
  · intro hnone
    rw [hval]
    have : (first :: rest).find? (fun r => r.checked) = none := by
      apply List.find?_eq_none.mpr
      intro x hx
      have : x ∈ radios.filter radioEligible := by rw [hfil]; exact hx
      rcases List.mem_filter.mp this with ⟨hin, helig⟩
      simp [hnone x hin helig]
    rw [this]
  · intro r hr helig hchk huniq
    rw [hval]
    have hrmem : r ∈ first :: rest := by
      rw [← hfil]
      exact List.mem_filter.mpr ⟨hr, helig⟩
    have hfind : (first :: rest).find? (fun x => x.checked) = some r := by
      apply find?_of_unique
      · exact hrmem
      · exact hchk
      · intro b hb hbchk
        have hbf : b ∈ radios.filter radioEligible := by rw [hfil]; exact hb
        rcases List.mem_filter.mp hbf with ⟨hbin, hbelig⟩
        exact huniq b hbin hbelig hbchk
    rw [hfind]

def c1disabled : Control :=
  { baseControl with eid := 3, type := "radio", name := "prog", value := "a",
                     checked := true, required := true, disabled := true }

def c1visible : Control :=
  { baseControl with eid := 4, type := "radio", name := "prog", value := "b" }

/-- C1 counterexample: a group whose disabled member is both required and
checked (value `a`) and whose only visible, enabled member is neither.  The
emitted field has `required = false` and `currentValue = ""`, while the claim
as stated (quantifying over all members) demands `required = true` and
`currentValue = "a"`. -/
theorem claim_C1_counterexample :
    ((analyzeRadioGroup [c1disabled, c1visible] "0" "prog").map
      (fun f => (f.required, f.value)) = some (false, "")) ∧
    c1disabled.required = true ∧ c1disabled.checked = true ∧
    c1disabled.value = "a" := by
  decide

def c1wChecked : Control :=
  { baseControl with eid := 6, type := "radio", name := "grp", value := "x",
                     checked := true, required := true }

def c1wOther : Control :=
  { baseControl with eid := 7, type := "radio", name := "grp", value := "y" }

def c1wField : FieldInfo :=
  (analyzeRadioGroup [c1wChecked, c1wOther] "0" "grp").getD dummyField

theorem claim_C1_witness :
    c1wField.options.length = 2 ∧ c1wField.required = true ∧
    c1wField.value = "x" := by
  have h := (claim_C1_radio_group [c1wChecked, c1wOther] "0" "grp").2 c1wField rfl
  refine ⟨?_, ?_, ?_⟩
  · rw [h.1]; decide
  · exact h.2.1.mpr ⟨c1wChecked, List.mem_cons_self _ _, by decide, by decide⟩
  · exact h.2.2.2 c1wChecked (List.mem_cons_self _ _) (by decide) (by decide)
      (by decide)

/-! ## Claim C2 -/

/-- C2 (amended): a radio control with no name attribute is never grouped into
a radio-group field in any pass, and no error is raised; however it is not
dropped: a visible, enabled nameless radio is emitted as an individual
(non-group) LogicalField through the ordinary `analyzeField` path. -/
theorem claim_C2_nameless_radio :
    (∀ (doc : Document), ∀ f ∈ detectForms doc, ∀ r ∈ f.radioButtons, r.name ≠ "") ∧
    (∀ (controls : List Control) (formIndex : String) (i : Nat) (c : Control),
      (i, c) ∈ controls.enum → c.type = "radio" → c.name = "" →
      eligibleControl c = true →
      ∃ f ∈ analyzeFormFields controls formIndex,
        f.element = c ∧ f.type = "radio" ∧ f.radioButtons = []) := by
  constructor
  · intro doc
    apply detectForms_pres (fun f => ∀ r ∈ f.radioButtons, r.name ≠ "")
    · intro c fi i f hf r hr
      rcases analyzeField_some hf with ⟨-, -, hrb, -, -⟩
      rw [hrb] at hr
      cases hr
    · intro rs fi g f hOK hf r hr
      rcases analyzeRadioGroup_some hf with ⟨first, rest, hfil, hrb, -⟩
      rw [hrb] at hr
      have : r ∈ rs.filter radioEligible := by rw [hfil]; exact hr
      rcases List.mem_filter.mp this with ⟨hin, -⟩
      rcases hOK r hin with ⟨-, hname, hg⟩
      rw [hname]
      exact hg
  · intro controls formIndex i c henum htype hname helig
    rcases analyzeField_of_eligible formIndex i helig with
      ⟨f, hf, hfe, hfrb, -, hft⟩
    refine ⟨f, ?_, hfe, ?_, hfrb⟩
    · unfold analyzeFormFields
      apply List.mem_append.mpr
      left
      apply List.mem_filterMap.mpr
      refine ⟨(i, c), henum, ?_⟩
      have hcond : (c.type == "radio" && c.name != "") = false := by
        simp [hname]
      simp only [hcond]
      exact hf
    · rw [hft, htype]
      rfl

def c2radio : Control :=
  { baseControl with eid := 5, type := "radio", name := "", value := "yes" }

def c2doc : Document :=
  { forms := [[c2radio]], standalone := [], containers := [] }

/-- C2 counterexample: a form containing a single visible, enabled radio with
no name.  The claim says no LogicalField is emitted for it in any pass, but
the detector outputs exactly one field whose element is that radio (as an
individual `radio`-typed field). -/
theorem claim_C2_counterexample :
    (detectForms c2doc).map (fun f => (f.element.eid, f.type)) = [(5, "radio")] ∧
    c2radio.name = "" ∧ c2radio.type = "radio" ∧
    eligibleControl c2radio = true := by
  decide

def c2field : FieldInfo := (analyzeFormFields [c2radio] "0").headD dummyField

theorem claim_C2_witness :
    c2field.element = c2radio ∧ c2field.type = "radio" ∧
    c2field.radioButtons = [] := by
  obtain ⟨f, hfmem, hfe, hft, hfrb⟩ :=
    claim_C2_nameless_radio.2 [c2radio] "0" 0 c2radio (by decide) rfl rfl
      (by decide)
  have hlist : analyzeFormFields [c2radio] "0" = [c2field] := rfl
  rw [hlist] at hfmem
  have : f = c2field := List.mem_singleton.mp hfmem
  subst this
  exact ⟨hfe, hft, hfrb⟩

/-! ## Claim C9 -/

/-- C9: the Field Classifier classifies email/tel/date/number/url controls
directly from their native type; otherwise it returns the tag of the first
entry, in declared table order, whose keyword list has a substring match in
the lowercase blob built from name, id, placeholder and resolved label; and
it returns `unknown` exactly when no table entry matches. -/
theorem claim_C9_classifier (c : Control) :
    (c.type = "email" → classifyField c = "email") ∧
    (c.type = "tel" → classifyField c = "phone") ∧
    (c.type = "date" → classifyField c = "date") ∧
    (c.type = "number" → classifyField c = "number") ∧
    (c.type = "url" → classifyField c = "url") ∧
    (c.type ∉ (["email", "tel", "date", "number", "url"] : List String) →
      (∀ (pre : List (String × List String)) (e : String × List String)
          (post : List (String × List String)),
        fieldTypes = pre ++ e :: post →
        entryMatches (classifyBlob c) e = true →
        (∀ x ∈ pre, entryMatches (classifyBlob c) x = false) →
        classifyField c = e.1) ∧
      (classifyField c = "unknown" ↔
        ∀ e ∈ fieldTypes, entryMatches (classifyBlob c) e = false)) := by
  refine ⟨?_, ?_, ?_, ?_, ?_, ?_⟩
  · intro h; unfold classifyField; rw [if_pos (by simp [h])]
  · intro h
    unfold classifyField
    rw [if_neg (by simp [h]), if_pos (by simp [h])]
  · intro h
    unfold classifyField
    rw [if_neg (by simp [h]), if_neg (by simp [h]), if_pos (by simp [h])]
  · intro h
    unfold classifyField
    rw [if_neg (by simp [h]), if_neg (by simp [h]), if_neg (by simp [h]),
        if_pos (by simp [h])]
  · intro h
    unfold classifyField
    rw [if_neg (by simp [h]), if_neg (by simp [h]), if_neg (by simp [h]),
        if_neg (by simp [h]), if_pos (by simp [h])]
  · intro hnat
    obtain ⟨h1, h2, h3, h4, h5⟩ :
        c.type ≠ "email" ∧ c.type ≠ "tel" ∧ c.type ≠ "date" ∧
        c.type ≠ "number" ∧ c.type ≠ "url" := by
      simpa using hnat
    have hred : classifyField c =
        match fieldTypes.find? (fun entry => entryMatches (classifyBlob c) entry) with
        | some entry => entry.1
        | none => "unknown" := by
      unfold classifyField
      rw [if_neg (by simp [h1]), if_neg (by simp [h2]), if_neg (by simp [h3]),
          if_neg (by simp [h4]), if_neg (by simp [h5])]
    constructor
    · intro pre e post htab hmatch hpre
      rw [hred, htab, find?_of_prefix_false _ pre e post hpre hmatch]
    · rw [hred]
      constructor
      · intro h e he
        cases hfind : fieldTypes.find? (fun entry => entryMatches (classifyBlob c) entry) with
        | none => exact Bool.not_eq_true _ ▸ (by simpa using List.find?_eq_none.mp hfind e he)
        | some e' =>
          rw [hfind] at h
          have hmem := List.mem_of_find?_eq_some hfind
          have : ∀ x ∈ fieldTypes, x.1 ≠ "unknown" := by decide
          exact absurd h (this e' hmem)
      · intro hall
        have : fieldTypes.find? (fun entry => entryMatches (classifyBlob c) entry) = none := by
          apply List.find?_eq_none.mpr
          intro e he
          simp [hall e he]
        rw [this]

def c9ctrl : Control := { baseControl with eid := 8, name := "applicant" }

def c9nameEntry : String × List String :=
  ("name", ["name", "applicant", "owner", "contractor", "first", "last", "full"])

theorem claim_C9_witness : classifyField c9ctrl = "name" := by
  have h := (claim_C9_classifier c9ctrl).2.2.2.2.2 (by decide)
  exact h.1 [] c9nameEntry fieldTypes.tail rfl (by decide)
    (fun x hx => absurd hx (List.not_mem_nil x))

/-! Pointwise characterizations of the Value Applier's page updates. -/

theorem updateAt_get? (page : List LiveControl) (i : Nat)
    (f : LiveControl → LiveControl) (j : Nat) :
    (updateAt page i f).get? j =
      (page.get? j).map (fun lc => if j == i then f lc else lc) := by
  unfold updateAt
  have := enumFrom_map_get? (fun k lc => if k == i then f lc else lc) page 0 j
  simpa [List.enum] using this

theorem checkRadioAt_get? {page : List LiveControl} {i : Nat}
    {target : LiveControl} (h : page.get? i = some target) (j : Nat) :
    (checkRadioAt page i).get? j =
      (page.get? j).map (fun lc =>
        if j == i then { lc with ctrl := { lc.ctrl with checked := true } }
        else if target.ctrl.type == "radio" && target.ctrl.name != "" &&
                lc.ctrl.type == "radio" && lc.ctrl.name == target.ctrl.name then
          { lc with ctrl := { lc.ctrl with checked := false } }
        else lc) := by
  unfold checkRadioAt
  rw [h]
  have := enumFrom_map_get? (fun k lc =>
    if k == i then { lc with ctrl := { lc.ctrl with checked := true } }
    else if target.ctrl.type == "radio" && target.ctrl.name != "" &&
            lc.ctrl.type == "radio" && lc.ctrl.name == target.ctrl.name then
      { lc with ctrl := { lc.ctrl with checked := false } }
    else lc) page 0 j
  simpa [List.enum] using this

theorem radioMatchIdxs_singleton {page : List LiveControl}
    {fieldId value : String} {i : Nat}
    (hidx : radioMatchIdxs page fieldId value = [i]) :
    ∃ lc, page.get? i = some lc ∧
      isRadioGroupMember fieldId lc = true ∧ radioMatches value lc = true ∧
      page.any (isRadioGroupMember fieldId) = true := by
  unfold radioMatchIdxs at hidx
  cases hfl : page.enum.filter (fun p =>
      isRadioGroupMember fieldId p.2 && radioMatches value p.2) with
  | nil => rw [hfl] at hidx; cases hidx
  | cons p tl =>
    rw [hfl] at hidx
    simp only [List.map_cons, List.cons.injEq] at hidx
    have hp : p ∈ page.enum.filter (fun p =>
        isRadioGroupMember fieldId p.2 && radioMatches value p.2) := by
      rw [hfl]; exact List.mem_cons_self p tl
    rcases List.mem_filter.mp hp with ⟨hmem, hq⟩
    rcases (Bool.and_eq_true _ _).mp hq with ⟨hq1, hq2⟩
    have hget : page.get? p.1 = some p.2 := mem_enum_get? (by
      cases p; exact hmem)
    refine ⟨p.2, ?_, hq1, hq2, ?_⟩
    · rw [← hidx.1]; exact hget
    · exact List.any_eq_true.mpr ⟨p.2, get?_mem' hget, hq1⟩

theorem applyEntry_radio_singleton {page : List LiveControl}
    {fieldId value : String} {i : Nat}
    (hv1 : value ≠ "") (hv2 : value ≠ "N/A")
    (hidx : radioMatchIdxs page fieldId value = [i]) :
    applyEntry page (fieldId, value) =
      (dispatchChangeAt (checkRadioAt page i) i, 1) := by
  rcases radioMatchIdxs_singleton hidx with ⟨lc, -, -, -, hany⟩
  have hvcond : (value == "" || value == "N/A") = false := by
    simp [hv1, hv2]
  unfold applyEntry
  simp only [hvcond, Bool.false_eq_true, if_false, hidx, hany,
    List.isEmpty_cons, Bool.not_false, Bool.and_self, if_true]
  rfl

/-! ## Claim C6 -/

/-- C6: when the Value Applier is given a map entry (with a usable value)
whose key names a radio group on the page and exactly one member radio — the
one at position `i` — fuzzily matches the value (by value or resolved label,
case-insensitive substring in either direction), it marks that radio checked
and dispatches a change event on it exactly once (no input event), counts one
filled control, and dispatches no event on any other control. -/
theorem claim_C6_radio_apply (page : List LiveControl)
    (fieldId value : String) (i : Nat) (lc : LiveControl)
    (hv1 : value ≠ "") (hv2 : value ≠ "N/A")
    (hidx : radioMatchIdxs page fieldId value = [i])
    (hget : page.get? i = some lc) :
    (applyEntry page (fieldId, value)).2 = 1 ∧
    ((applyEntry page (fieldId, value)).1.get? i).map
        (fun l => (l.ctrl.checked, l.inputEvents, l.changeEvents)) =
      some (true, lc.inputEvents, lc.changeEvents + 1) ∧
    ∀ j, j ≠ i →
      ((applyEntry page (fieldId, value)).1.get? j).map
          (fun l => (l.inputEvents, l.changeEvents, l.ctrl.value)) =
        (page.get? j).map
          (fun l => (l.inputEvents, l.changeEvents, l.ctrl.value)) := by
  have happ := applyEntry_radio_singleton hv1 hv2 hidx
  rw [happ]
  refine ⟨rfl, ?_, ?_⟩
  · show ((dispatchChangeAt (checkRadioAt page i) i).get? i).map _ = _
    unfold dispatchChangeAt
    rw [updateAt_get?, checkRadioAt_get? hget]
    rw [hget]
    simp
  · intro j hj
    show ((dispatchChangeAt (checkRadioAt page i) i).get? j).map _ = _
    unfold dispatchChangeAt
    rw [updateAt_get?, checkRadioAt_get? hget]
    have hne : (j == i) = false := by simp [hj]
    cases hpj : page.get? j with
    | none => simp
    | some lcj =>
      simp only [Option.map_some', hne, Bool.false_eq_true, if_false]
      split <;> rfl

def scenBr1 : Control :=
  { baseControl with eid := 10, type := "radio", name := "program",
                     value := "simple_solar", checked := true,
                     label := "Simple Solar" }

def scenBr2 : Control :=
  { baseControl with eid := 11, type := "radio", name := "program",
                     value := "complex_self", label := "Complex Self Generation" }

def scenBr3 : Control :=
  { baseControl with eid := 12, type := "radio", name := "program",
                     value := "net_metering", label := "Net Metering" }

def scenBtext : Control :=
  { baseControl with eid := 13, id := "customer_name", name := "customer_name" }

def scenBPage : List LiveControl :=
  [⟨scenBr1, 0, 0⟩, ⟨scenBr2, 0, 0⟩, ⟨scenBr3, 0, 0⟩, ⟨scenBtext, 0, 0⟩]

theorem claim_C6_witness :
    (applyEntry scenBPage ("program", "Complex Self Generation")).2 = 1 ∧
    ((applyEntry scenBPage ("program", "Complex Self Generation")).1.get? 1).map
        (fun l => (l.ctrl.checked, l.inputEvents, l.changeEvents)) =
      some (true, 0, 1) ∧
    ((applyEntry scenBPage ("program", "Complex Self Generation")).1.get? 0).map
        (fun l => (l.inputEvents, l.changeEvents, l.ctrl.value)) =
      some (0, 0, "simple_solar") ∧
    (fillFormsWithMappings
      [("program", "Complex Self Generation"), ("customer_name", "John Smith")]
      scenBPage).2 = 2 ∧
    ((fillFormsWithMappings
      [("program", "Complex Self Generation"), ("customer_name", "John Smith")]
      scenBPage).1.get? 3).map
        (fun l => (l.ctrl.value, l.inputEvents, l.changeEvents)) =
      some ("John Smith", 1, 1) := by
  have h := claim_C6_radio_apply scenBPage "program" "Complex Self Generation"
    1 ⟨scenBr2, 0, 0⟩ (by decide) (by decide) (by decide) rfl
  refine ⟨h.1, h.2.1, ?_, by decide, by decide⟩
  rw [h.2.2 0 (by decide)]
  decide

/-! ## Claims C7 / C10: the non-radio-group branch of the Value Applier. -/

theorem applyEntry_nonGroup_skip {page : List LiveControl}
    {fieldId value : String}
    (hng : page.any (isRadioGroupMember fieldId) = false)
    (hv1 : value ≠ "") (hv2 : value ≠ "N/A")
    (hres : resolveIdx page fieldId = none) :
    applyEntry page (fieldId, value) = (page, 0) := by
  have hvcond : (value == "" || value == "N/A") = false := by simp [hv1, hv2]
  unfold applyEntry
  simp only [hvcond, Bool.false_eq_true, if_false, hng, Bool.false_and, hres]

theorem applyEntry_nonGroup_hit {page : List LiveControl}
    {fieldId value : String} {i : Nat} {lc : LiveControl}
    (hng : page.any (isRadioGroupMember fieldId) = false)
    (hv1 : value ≠ "") (hv2 : value ≠ "N/A")
    (hres : resolveIdx page fieldId = some i)
    (hget : page.get? i = some lc)
    (htype : (lc.ctrl.type == "hidden" || lc.ctrl.type == "submit" ||
              lc.ctrl.type == "button") = false) :
    applyEntry page (fieldId, value) =
      if lc.ctrl.type == "radio" then
        (dispatchChangeAt (checkRadioAt page i) i, 1)
      else
        (updateAt page i (writeValue value), 1) := by
  have hvcond : (value == "" || value == "N/A") = false := by simp [hv1, hv2]
  unfold applyEntry
  simp only [hvcond, Bool.false_eq_true, if_false, hng, Bool.false_and, hres,
    hget, htype]

theorem resolveIdx_id_first {page : List LiveControl} {fieldId : String}
    {i : Nat} {lc : LiveControl}
    (hne : fieldId ≠ "") (hget : page.get? i = some lc)
    (hid : lc.ctrl.id = fieldId)
    (hfirst : ∀ j lcj, j < i → page.get? j = some lcj →
      lcj.ctrl.id ≠ fieldId) :
    resolveIdx page fieldId = some i := by
  unfold resolveIdx
  rw [if_neg (by simp [hne])]
  rw [enum_find?_first' (fun lc => lc.ctrl.id == fieldId) page i lc hget
    (by simp [hid]) (fun j y hj hy => by simp [hfirst j y hj hy])]

theorem resolveIdx_name_second {page : List LiveControl} {fieldId : String}
    {i : Nat} {lc : LiveControl}
    (hnoid : fieldId = "" ∨ ∀ x ∈ page, x.ctrl.id ≠ fieldId)
    (hget : page.get? i = some lc)
    (hna : lc.ctrl.name = fieldId)
    (hfirst : ∀ j lcj, j < i → page.get? j = some lcj →
      lcj.ctrl.name ≠ fieldId) :
    resolveIdx page fieldId = some i := by
  unfold resolveIdx
  have hsecond := enum_find?_first' (fun lc => lc.ctrl.name == fieldId) page i lc
    hget (by simp [hna]) (fun j y hj hy => by simp [hfirst j y hj hy])
  rcases hnoid with h | h
  · rw [if_pos (by simp [h]), hsecond]
  · have hidnone : page.enum.find? (fun p => p.2.ctrl.id == fieldId) = none := by
      apply List.find?_eq_none.mpr
      intro p hp
      have hmem : p.2 ∈ page := enum_snd_mem hp
      simp [h p.2 hmem]
    by_cases hfe : fieldId = ""
    · rw [if_pos (by simp [hfe]), hsecond]
    · rw [if_neg (by simp [hfe]), hidnone, hsecond]

theorem resolveIdx_partial_third {page : List LiveControl} {fieldId : String}
    {i : Nat} {lc : LiveControl}
    (hne : fieldId ≠ "")
    (hnoid : ∀ x ∈ page, x.ctrl.id ≠ fieldId)
    (hnoname : ∀ x ∈ page, x.ctrl.name ≠ fieldId)
    (hget : page.get? i = some lc)
    (hpart : (strContains lc.ctrl.id fieldId ||
              strContains lc.ctrl.name fieldId) = true)
    (hfirst : ∀ j lcj, j < i → page.get? j = some lcj →
      (strContains lcj.ctrl.id fieldId ||
       strContains lcj.ctrl.name fieldId) = false) :
    resolveIdx page fieldId = some i := by
  unfold resolveIdx
  rw [if_neg (by simp [hne])]
  rw [List.find?_eq_none.mpr ?_]
  · rw [List.find?_eq_none.mpr ?_]
    · rw [if_neg (by simp [hne])]
      rw [enum_find?_first' _ page i lc hget hpart hfirst]
    · intro p hp
      have : p.2 ∈ page := enum_snd_mem hp
      simp [hnoname p.2 this]
  · intro p hp
    have : p.2 ∈ page := enum_snd_mem hp
    simp [hnoid p.2 this]

/-- C7 (amended): for a usable map entry whose key names no radio group, the
applier resolves the key by exact id, then exact name, then partial id/name
substring match, each taking the first matching control in document order; an
unresolvable entry is silently skipped, leaves the page untouched and does not
abort the batch; on success the control is counted once and, if it is an
individual radio, it is only marked checked with a single change event (no
input event, value unwritten), otherwise its value is set and one input and
one change event are dispatched; other controls are untouched. -/
theorem claim_C7_nonradio_apply (page : List LiveControl)
    (fieldId value : String)
    (hng : ∀ x ∈ page, isRadioGroupMember fieldId x = false)
    (hv1 : value ≠ "") (hv2 : value ≠ "N/A") :
    (resolveIdx page fieldId = none →
      applyEntry page (fieldId, value) = (page, 0) ∧
      ∀ rest, fillFormsWithMappings ((fieldId, value) :: rest) page =
        fillFormsWithMappings rest page) ∧
    (∀ i lc, resolveIdx page fieldId = some i → page.get? i = some lc →
      lc.ctrl.type ≠ "hidden" → lc.ctrl.type ≠ "submit" →
      lc.ctrl.type ≠ "button" →
      (applyEntry page (fieldId, value)).2 = 1 ∧
      (lc.ctrl.type ≠ "radio" →
        ((applyEntry page (fieldId, value)).1.get? i).map
            (fun l => (l.ctrl.value, l.inputEvents, l.changeEvents)) =
          some (value, lc.inputEvents + 1, lc.changeEvents + 1)) ∧
      (lc.ctrl.type = "radio" →
        ((applyEntry page (fieldId, value)).1.get? i).map
            (fun l => (l.ctrl.checked, l.ctrl.value, l.inputEvents, l.changeEvents)) =
          some (true, lc.ctrl.value, lc.inputEvents, lc.changeEvents + 1)) ∧
      (∀ j, j ≠ i → lc.ctrl.type ≠ "radio" →
        (applyEntry page (fieldId, value)).1.get? j = page.get? j)) ∧
    (∀ i lc, fieldId ≠ "" → page.get? i = some lc → lc.ctrl.id = fieldId →
      (∀ j lcj, j < i → page.get? j = some lcj → lcj.ctrl.id ≠ fieldId) →
      resolveIdx page fieldId = some i) ∧
    ((fieldId = "" ∨ ∀ x ∈ page, x.ctrl.id ≠ fieldId) →
      ∀ i lc, page.get? i = some lc → lc.ctrl.name = fieldId →
      (∀ j lcj, j < i → page.get? j = some lcj → lcj.ctrl.name ≠ fieldId) →
      resolveIdx page fieldId = some i) ∧
    (fieldId ≠ "" → (∀ x ∈ page, x.ctrl.id ≠ fieldId) →
      (∀ x ∈ page, x.ctrl.name ≠ fieldId) →
      ∀ i lc, page.get? i = some lc →
      (strContains lc.ctrl.id fieldId ||
       strContains lc.ctrl.name fieldId) = true →
      (∀ j lcj, j < i → page.get? j = some lcj →
        (strContains lcj.ctrl.id fieldId ||
         strContains lcj.ctrl.name fieldId) = false) →
      resolveIdx page fieldId = some i) := by
  have hngb : page.any (isRadioGroupMember fieldId) = false := by
    cases hany : page.any (isRadioGroupMember fieldId) with
    | false => rfl
    | true =>
      rcases List.any_eq_true.mp hany with ⟨x, hx, hgx⟩
      rw [hng x hx] at hgx
      cases hgx
  refine ⟨?_, ?_, ?_, ?_, ?_⟩
  · intro hres
    have hskip := applyEntry_nonGroup_skip hngb hv1 hv2 hres
    refine ⟨hskip, ?_⟩
    intro rest
    unfold fillFormsWithMappings
    simp only [List.foldl_cons, hskip]
  · intro i lc hres hget h1 h2 h3
    have htype : (lc.ctrl.type == "hidden" || lc.ctrl.type == "submit" ||
        lc.ctrl.type == "button") = false := by simp [h1, h2, h3]
    have happ := applyEntry_nonGroup_hit hngb hv1 hv2 hres hget htype
    by_cases hradio : lc.ctrl.type = "radio"
    · rw [happ, if_pos (by simp [hradio])]
      refine ⟨rfl, fun h => absurd hradio h, ?_, fun j hj h => absurd hradio h⟩
      intro _
      show ((dispatchChangeAt (checkRadioAt page i) i).get? i).map _ = _
      unfold dispatchChangeAt
      rw [updateAt_get?, checkRadioAt_get? hget, hget]
      simp
    · rw [happ, if_neg (by simp [hradio])]
      refine ⟨rfl, ?_, fun h => absurd h hradio, ?_⟩
      · intro _
        show ((updateAt page i (writeValue value)).get? i).map _ = _
        rw [updateAt_get?, hget]
        simp [writeValue]
      · intro j hj _
        show (updateAt page i (writeValue value)).get? j = page.get? j
        rw [updateAt_get?]
        have hne : (j == i) = false := by simp [hj]
        simp [hne]
  · intro i lc hne hget hid hfirst
    exact resolveIdx_id_first hne hget hid hfirst
  · intro hnoid i lc hget hna hfirst
    exact resolveIdx_name_second hnoid hget hna hfirst
  · intro hne hnoid hnoname i lc hget hpart hfirst
    exact resolveIdx_partial_third hne hnoid hnoname hget hpart hfirst

def c7radio : Control :=
  { baseControl with eid := 20, type := "radio", id := "foo", name := "bar",
                     value := "v1" }

def c7page : List LiveControl := [⟨c7radio, 0, 0⟩]

/-- C7 counterexample: the key `foo` names no radio group, but resolves by
exact id to an individual radio.  The applier marks it checked and dispatches
a single change event — it does not set the control's value and dispatches no
input event, contradicting the claim's "sets the control's value and
dispatches both input and change events". -/
theorem claim_C7_counterexample :
    (∀ x ∈ c7page, isRadioGroupMember "foo" x = false) ∧
    ((applyEntry c7page ("foo", "x")).1.map
      (fun l => (l.ctrl.checked, l.ctrl.value, l.inputEvents, l.changeEvents)) =
      [(true, "v1", 0, 1)]) ∧
    (applyEntry c7page ("foo", "x")).2 = 1 := by
  refine ⟨?_, by decide, by decide⟩
  decide

def c7wctrl : Control :=
  { baseControl with eid := 21, id := "customer_name", name := "customer_name" }

def c7wpage : List LiveControl := [⟨c7wctrl, 0, 0⟩]

theorem claim_C7_witness :
    (applyEntry c7wpage ("customer_name", "John Smith")).2 = 1 ∧
    ((applyEntry c7wpage ("customer_name", "John Smith")).1.get? 0).map
        (fun l => (l.ctrl.value, l.inputEvents, l.changeEvents)) =
      some ("John Smith", 1, 1) ∧
    (applyEntry c7wpage ("missing_key", "John Smith")) = (c7wpage, 0) := by
  have h := claim_C7_nonradio_apply c7wpage "customer_name" "John Smith"
    (by decide) (by decide) (by decide)
  have hres : resolveIdx c7wpage "customer_name" = some 0 :=
    (h.2.2.1) 0 ⟨c7wctrl, 0, 0⟩ (by decide) rfl (by decide)
      (fun j lcj hj _ => absurd hj (by omega))
  have hb := h.2.1 0 ⟨c7wctrl, 0, 0⟩ hres rfl (by decide) (by decide) (by decide)
  refine ⟨hb.1, ?_, ?_⟩
  · have := hb.2.1 (by decide)
    simpa using this
  · have h' := claim_C7_nonradio_apply c7wpage "missing_key" "John Smith"
      (by decide) (by decide) (by decide)
    exact (h'.1 (by decide)).1

/-! ## Claim C10 -/

/-- C10: the Value Applier's non-radio branch only refuses types
hidden/submit/button — it does not re-apply the detection-time eligibility
filter.  A resolved control that is disabled, invisible, or of type
image/reset is still written (value set, input and change dispatched) and
counted, even though `analyzeField` would have rejected that very control. -/
theorem claim_C10_applier_ignores_eligibility (page : List LiveControl)
    (fieldId value : String) (i : Nat) (lc : LiveControl)
    (hng : ∀ x ∈ page, isRadioGroupMember fieldId x = false)
    (hv1 : value ≠ "") (hv2 : value ≠ "N/A")
    (hres : resolveIdx page fieldId = some i)
    (hget : page.get? i = some lc)
    (h1 : lc.ctrl.type ≠ "hidden") (h2 : lc.ctrl.type ≠ "submit")
    (h3 : lc.ctrl.type ≠ "button") (h4 : lc.ctrl.type ≠ "radio")
    (hinel : lc.ctrl.disabled = true ∨ isElementVisible lc.ctrl = false ∨
             lc.ctrl.type = "image" ∨ lc.ctrl.type = "reset") :
    (applyEntry page (fieldId, value)).2 = 1 ∧
    ((applyEntry page (fieldId, value)).1.get? i).map
        (fun l => (l.ctrl.value, l.inputEvents, l.changeEvents)) =
      some (value, lc.inputEvents + 1, lc.changeEvents + 1) ∧
    (∀ fi k, analyzeField lc.ctrl fi k = none) := by
  have hngb : page.any (isRadioGroupMember fieldId) = false := by
    cases hany : page.any (isRadioGroupMember fieldId) with
    | false => rfl
    | true =>
      rcases List.any_eq_true.mp hany with ⟨x, hx, hgx⟩
      rw [hng x hx] at hgx
      cases hgx
  have htype : (lc.ctrl.type == "hidden" || lc.ctrl.type == "submit" ||
      lc.ctrl.type == "button") = false := by simp [h1, h2, h3]
  have happ := applyEntry_nonGroup_hit hngb hv1 hv2 hres hget htype
  rw [happ, if_neg (by simp [h4])]
  refine ⟨rfl, ?_, ?_⟩
  · show ((updateAt page i (writeValue value)).get? i).map _ = _
    rw [updateAt_get?, hget]
    simp [writeValue]
  · intro fi k
    unfold analyzeField
    rcases hinel with h | h | h | h
    · rw [if_pos (by simp [h])]
    · split
      · rfl
      · rw [if_pos (by simp [h])]
    · rw [if_pos (by simp [h])]
    · rw [if_pos (by simp [h])]

def c10ctrl : Control :=
  { baseControl with eid := 30, type := "image", id := "pic", disabled := true,
                     display := "none", offsetWidth := 0, offsetHeight := 0 }

def c10page : List LiveControl := [⟨c10ctrl, 0, 0⟩]

theorem claim_C10_witness :
    (applyEntry c10page ("pic", "val")).2 = 1 ∧
    ((applyEntry c10page ("pic", "val")).1.get? 0).map
        (fun l => (l.ctrl.value, l.inputEvents, l.changeEvents)) =
      some ("val", 1, 1) ∧
    analyzeField c10ctrl "0" 0 = none := by
  have h := claim_C10_applier_ignores_eligibility c10page "pic" "val" 0
    ⟨c10ctrl, 0, 0⟩ (by decide) (by decide) (by decide)
    (resolveIdx_id_first (by decide) rfl (by decide)
      (fun j lcj hj _ => absurd hj (by omega)))
    rfl (by decide) (by decide) (by decide) (by decide)
    (Or.inl (by decide))
  exact ⟨h.1, h.2.1, h.2.2 "0" 0⟩

/-! ## Claim C8 -/

def c8email : Control :=
  { baseControl with eid := 40, name := "email", id := "email",
                     label := "Email address" }

def c8page : List LiveControl := [⟨c8email, 0, 0⟩]

/-- C8 (code-bug evidence): with an empty AI mapping the orchestrator does
fall back to `autoFillWithSampleData`, but the injected `fillFormsOnPage`
dereferences `this.getFieldLabel`, which does not exist in the page context
it is re-created in, so on a page with a fillable control named `email` it
raises a TypeError at the first fillable control instead of filling it — the
sample dictionary does hold a matching `email` entry that the intended
substring match would have applied. -/
theorem claim_C8_sample_fallback_throws :
    fillFormsOnPage sampleData c8page =
      Except.error "TypeError: this.getFieldLabel is not a function" ∧
    sampleData.lookup "email" = some "eddie.gonzalez@email.com" ∧
    strContains (strToLower c8email.name) "email" = true ∧
    (c8email.type = "hidden" ∨ c8email.type = "submit" ∨
     c8email.type = "button") = False := by
  refine ⟨rfl, by decide, by decide, by simp [c8email, baseControl]⟩

end SmartFormGuide
